import Mathlib

/-!
Shallow embedding of `src/filechanges.py`: a periodic file-change detector
backed by a SQLite table of `(file, md5)` rows.

Modelling conventions:
* The SQLite table is a `Store := Option (List (String × String))`:
  `none` means the table does not exist in the database file, `some rows`
  means it exists with the given rows in insertion order.  SQL errors that
  the Python code swallows (e.g. INSERT into a missing table, which
  `query_database` catches and logs) become no-ops, exactly as they are at
  the Python call sites.
* `os.path.getmtime` is modelled by a parameter `stat : String → Option String`
  mapping a path to the textual form of its modification time when the stat
  succeeds and `none` when it raises `OSError`; `get_moddate` turns `none`
  into the sentinel `"0"` (Python: `mtime = 0` in the `except` clause,
  then `str(mtime)`).
* `hashlib.md5(...).hexdigest()` is an external library call; it is modelled
  by a parameter `md5hex : String → String` applied to the exact string the
  source builds (`file + "|" + get_moddate(file)`).  Concrete runs
  instantiate it with the injective placeholder `md5model`; no claim depends
  on the digest's actual value, only on equality/inequality of digests.
* `os.walk(folder)` (after the in-place pruning of hidden directories) is
  modelled by a parameter `walkOf : String → List (String × List String)`
  giving, per folder, the `(subdir, files)` pairs in traversal order; the
  hidden-file filter `files[:] = [f for f in files if not f.startswith(".")]`
  is applied explicitly inside `check_filechanges` as in the source.
* `os.path.isfile` is a parameter `isFile : String → Bool`,
  `os.path.abspath` a parameter `abspath : String → String`.
* The spreadsheet rows written by `row_xlsreport` are modelled as
  `ChangeEvent`s (file name, full path, containing folder); the date/time
  columns come from the wall clock (`get_datetime`) and are not modelled.
* `execute`'s observable cleanup/reporting actions (saving the workbook,
  closing the database connection, printing on interrupt) are recorded as an
  `Action` trace, read off directly from the corresponding Python branches.
-/

namespace FileChanges

/-- One row of the SQLite table: `(file, md5)`. -/
abbrev Row := String × String

/-- The state of one table of the database: `none` when the table does not
exist, `some rows` when it exists and holds `rows` in insertion order. -/
abbrev Store := Option (List Row)

/-- `check_table`: `SELECT name FROM sqlite_master WHERE type='table' AND name=?`
is non-empty exactly when the table exists. -/
def check_table (s : Store) : Bool :=
  s.isSome

/-- `md5indb`: `SELECT md5 FROM {table} WHERE file=?`.  On a missing table the
query raises, `fetch_database` catches the error and returns its initial `0`,
which is falsy like the empty list; we return `[]` in that case. -/
def md5indb (file : String) (s : Store) : List String :=
  match s with
  | none => []
  | some rows => (rows.filter (fun r => r.1 == file)).map (fun r => r.2)

/-- `insert_hashtable`: `INSERT INTO {table} (file, md5) VALUES (?, ?)`.
On a missing table the statement raises, `query_database` catches the error,
and the database is unchanged. -/
def insert_hashtable (file md5 : String) (s : Store) : Store :=
  match s with
  | none => none
  | some rows => some (rows ++ [(file, md5)])

/-- `create_hashtable`: `CREATE TABLE IF NOT EXISTS {table} (file TEXT, md5 TEXT)`. -/
def create_hashtable (s : Store) : Store :=
  match s with
  | none => some []
  | some rows => some rows

/-- `setup_hashtable`: create table (and index, which has no row-level effect)
then insert the row. -/
def setup_hashtable (file md5 : String) (s : Store) : Store :=
  insert_hashtable file md5 (create_hashtable s)

/-- `update_hashtable`: if `check_table(table)` then
`UPDATE {table} SET md5=? WHERE file=?` (updates every row whose `file`
matches), else `setup_hashtable(file, md5, table)`. -/
def update_hashtable (file md5 : String) (s : Store) : Store :=
  if check_table s then
    match s with
    | none => none
    | some rows => some (rows.map (fun r => if r.1 == file then (r.1, md5) else r))
  else
    setup_hashtable file md5 s

/-- `haschanged`: look up the stored md5 for `file`; absent → insert and
return `True`; present with a different first md5 → update and return `True`;
otherwise return `False` with no write. -/
def haschanged (file md5 : String) (s : Store) : Bool × Store :=
  match md5indb file s with
  | [] => (true, insert_hashtable file md5 s)
  | c :: _ => if c ≠ md5 then (true, update_hashtable file md5 s) else (false, s)

/-- `get_moddate`: `str(os.path.getmtime(file))`, or `str(0) = "0"` when the
stat raises `OSError` (the error is caught and only logged). -/
def get_moddate (stat : String → Option String) (file : String) : String :=
  match stat file with
  | some t => t
  | none => "0"

/-- `md5short`: digest of `file + "|" + get_moddate(file)`.  Note the
argument of the inner stat is the same string `file` that is hashed. -/
def md5short (md5hex : String → String) (stat : String → Option String)
    (file : String) : String :=
  md5hex (file ++ "|" ++ get_moddate stat file)

/-- Injective stand-in for the external `hashlib.md5(...).hexdigest()`,
used to instantiate concrete runs. -/
def md5model (s : String) : String :=
  "md5(" ++ s ++ ")"

/-- Python `str.split(sep)` for a one-character separator: split on every
occurrence, keeping empty parts (structural helper over the character list). -/
def pySplitAux (sep : Char) : List Char → List Char → List String
  | [], cur => [String.mk cur.reverse]
  | c :: rest, cur =>
      if c == sep then String.mk cur.reverse :: pySplitAux sep rest []
      else pySplitAux sep rest (c :: cur)

/-- Python `str.split(sep)` for a one-character separator. -/
def pySplit (sep : Char) (s : String) : List String :=
  pySplitAux sep s.toList []

/-- Python `str.strip()`: remove leading and trailing whitespace. -/
def pyStrip (s : String) : String :=
  String.mk
    (((s.toList.dropWhile Char.isWhitespace).reverse.dropWhile
        Char.isWhitespace).reverse)

/-- Python `f.startswith(".")`: the first character is a dot. -/
def startswithDot (s : String) : Bool :=
  match s.toList with
  | [] => false
  | c :: _ => c == '.'

/-- `get_fileext`: the extension component of `os.path.splitext(file)[1]` for
a bare file name (no path separator): the suffix starting at the last dot,
provided some character before that dot is not itself a dot; otherwise `""`. -/
def get_fileext (file : String) : String :=
  let cs := file.toList
  match ((List.range cs.length).filter (fun i => cs.getD i ' ' == '.')).getLast? with
  | none => ""
  | some d =>
      if (List.range d).any (fun j => cs.getD j ' ' != '.') then
        String.mk (cs.drop d)
      else ""

/-- One spreadsheet row emitted via `row_xlsreport` for a changed file:
`(file, origin, subdir)`; the date/time columns come from the wall clock and
are not modelled. -/
structure ChangeEvent where
  fileName : String
  fullPath : String
  folder : String
deriving Repr, DecidableEq

/-- The loop state of `check_filechanges`: the local `changed` flag, the
database table, and the report rows appended so far. -/
structure ScanResult where
  changed : Bool
  store : Store
  events : List ChangeEvent
deriving Repr, DecidableEq

/-- The body of `check_filechanges`'s inner `for file in files` loop:
build `origin = os.path.join(subdir, file)`; if it is a regular file and its
extension is not excluded, hash it with `md5short(file)` (the base name, as in
the source) and classify with `haschanged(file, md5)`; on a change append a
report row and set `changed = True`. -/
def processFile (md5hex : String → String) (stat : String → Option String)
    (isFile : String → Bool) (exclude : List String) (subdir : String)
    (acc : ScanResult) (file : String) : ScanResult :=
  let origin := subdir ++ "/" ++ file
  if isFile origin then
    if !(exclude.contains (get_fileext file)) then
      let md5 := md5short md5hex stat file
      let r := haschanged file md5 acc.store
      if r.1 then
        { changed := true, store := r.2,
          events := acc.events ++ [⟨file, origin, subdir⟩] }
      else
        { acc with store := r.2 }
    else acc
  else acc

/-- `check_filechanges(folder, exclude, ws)` over the walk of one folder:
start with `changed = False`, and for each `(subdir, files)` pair filter out
hidden files and process the rest in order. -/
def check_filechanges (md5hex : String → String) (stat : String → Option String)
    (isFile : String → Bool) (exclude : List String)
    (walk : List (String × List String)) (s : Store) : ScanResult :=
  walk.foldl
    (fun acc entry =>
      (entry.2.filter (fun f => !(startswithDot f))).foldl
        (processFile md5hex stat isFile exclude entry.1) acc)
    ⟨false, s, []⟩

/-- The body of `load_folders`'s line loop, applied to one stripped line. -/
def loadLine (abspath : String → String)
    (acc : List String × List (List String)) (line : String) :
    List String × List (List String) :=
  let line := pyStrip line
  if line.toList.contains '|' then
    let parts := pySplit '|' line
    let folder_path := abspath (parts.headD "")
    let folders :=
      if acc.1.contains folder_path then acc.1 else acc.1 ++ [folder_path]
    let exts := parts.getD 1 ""
    let extensions :=
      if exts.length > 0 then acc.2 ++ [pySplit ',' exts] else acc.2
    (folders, extensions)
  else
    let folder_path := abspath line
    let folders :=
      if acc.1.contains folder_path then acc.1 else acc.1 ++ [folder_path]
    (folders, acc.2 ++ [[]])

/-- `load_folders`: read the configuration lines and build the parallel
`folders` and `extensions` lists.  A line containing `|` appends its folder
only when not already present and its extension list only when the part after
`|` is non-empty; a line without `|` appends the folder when not already
present but always appends `[]` to `extensions`. -/
def load_folders (abspath : String → String) (lines : List String) :
    List String × List (List String) :=
  lines.foldl (loadLine abspath) ([], [])

/-- The `for i, folder in enumerate(folders_exts[0])` loop of
`run_filechanges`: each iteration overwrites `changed` with the current
folder's result (`changed = check_filechanges(...)`); indexing
`exts[i]` out of bounds raises `IndexError`, modelled as `none`.
Report rows accumulate in the shared worksheet. -/
def run_folders (md5hex : String → String) (stat : String → Option String)
    (isFile : String → Bool) (walkOf : String → List (String × List String))
    (exts : List (List String)) :
    Nat → List String → Bool → Store → List ChangeEvent →
    Option (Bool × Store × List ChangeEvent)
  | _, [], ch, s, ev => some (ch, s, ev)
  | i, folder :: rest, _, s, ev =>
    match exts.get? i with
    | none => none
    | some ex =>
      let r := check_filechanges md5hex stat isFile ex (walkOf folder) s
      run_folders md5hex stat isFile walkOf exts (i + 1) rest r.changed r.store
        (ev ++ r.events)

/-- `run_filechanges(ws)`: load the folder configuration and scan every
folder in order, threading the database state and overwriting the cycle's
`changed` flag with each folder's result. -/
def run_filechanges (md5hex : String → String) (stat : String → Option String)
    (isFile : String → Bool) (walkOf : String → List (String × List String))
    (abspath : String → String) (lines : List String) (s : Store) :
    Option (Bool × Store × List ChangeEvent) :=
  let fe := load_folders abspath lines
  run_folders md5hex stat isFile walkOf fe.2 0 fe.1 false s []

/-- An observable cleanup/reporting action of `execute`. -/
inductive Action where
  | saveReport
  | closeDb
  | printStopped
  | printChanges (n : Nat)
deriving Repr, DecidableEq

/-- The single-shot branch of `execute`: run one cycle and, only when it
reported a change, call `end_xlsreport`, which saves the workbook and then
calls `close_db()`. -/
def execute_single (md5hex : String → String) (stat : String → Option String)
    (isFile : String → Bool) (walkOf : String → List (String × List String))
    (abspath : String → String) (lines : List String) (s : Store) :
    Option (Store × List Action) :=
  match run_filechanges md5hex stat isFile walkOf abspath lines s with
  | none => none
  | some (ch, s2, _) =>
      some (s2, if ch then [Action.saveReport, Action.closeDb] else [])

/-- The `while True` loop of `execute --loop`, run for `n` completed cycles
before the cancellation signal (`KeyboardInterrupt`) arrives: each cycle
increments `changes` when `run_filechanges` reports a change. -/
def execute_loop_go (md5hex : String → String) (stat : String → Option String)
    (isFile : String → Bool) (walkOf : String → List (String × List String))
    (abspath : String → String) (lines : List String) :
    Nat → Nat → Store → Option (Nat × Store)
  | 0, changes, s => some (changes, s)
  | n + 1, changes, s =>
    match run_filechanges md5hex stat isFile walkOf abspath lines s with
    | none => none
    | some (ch, s2, _) =>
        execute_loop_go md5hex stat isFile walkOf abspath lines n
          (if ch then changes + 1 else changes) s2

/-- The continuous branch of `execute`: loop until the cancellation signal,
then run the `except KeyboardInterrupt` handler, which prints `"Stopped..."`
and, only when `changes > 0`, prints the count.  The handler performs no
other action: in particular it calls neither `close_db` nor `end_xlsreport`. -/
def execute_loop (md5hex : String → String) (stat : String → Option String)
    (isFile : String → Bool) (walkOf : String → List (String × List String))
    (abspath : String → String) (lines : List String) (ncycles : Nat)
    (s : Store) : Option (Nat × Store × List Action) :=
  match execute_loop_go md5hex stat isFile walkOf abspath lines ncycles 0 s with
  | none => none
  | some (changes, s2) =>
      some (changes, s2,
        Action.printStopped ::
          (if changes > 0 then [Action.printChanges changes] else []))

/-- The `file` column of every row of the table (empty when the table does
not exist). -/
def storeKeys (s : Store) : List String :=
  (s.getD []).map Prod.fst

/-- At most one row per distinct `file` value. -/
def NodupKeys (s : Store) : Prop :=
  (storeKeys s).Nodup

end FileChanges

namespace FileChanges

/-- The SQL UPDATE row map leaves a row list untouched when no row's key
matches the updated file name. -/
theorem map_update_eq_self (file md5 : String) :
    ∀ rows : List Row, (∀ r ∈ rows, r.1 ≠ file) →
      rows.map (fun r => if r.1 == file then (r.1, md5) else r) = rows := by
  intro rows
  induction rows with
  | nil => intro _; rfl
  | cons r t ih =>
    intro habs
    have hr : (r.1 == file) = false := by
      simp only [beq_eq_false_iff_ne]
      exact habs r (List.mem_cons_self r t)
    have ht := ih (fun x hx => habs x (List.mem_cons_of_mem r hx))
    simp only [List.map_cons, hr, Bool.false_eq_true, if_false, ht]

/-- C1: the claim says one orchestrator cycle processes every configured
folder and aggregates the cycle-level changed flag as the logical OR of the
per-folder results.  The code processes every folder but overwrites `changed`
with each folder's result (`changed = check_filechanges(...)`): with folder
`A` containing one new file and folder `B` empty, folder `A`'s scan reports a
change (and its insert and report row survive, showing the loop did not stop),
yet the cycle result is `false` — the last folder wins, not the OR. -/
theorem C1_last_folder_wins :
    run_filechanges md5model (fun _ => some "1") (fun _ => true)
        (fun f => if f == "A" then [("A", ["f.txt"])]
                  else if f == "B" then [("B", ([] : List String))] else [])
        id ["A|.q", "B|.q"] (some []) =
      some (false, some [("f.txt", md5model ("f.txt" ++ "|" ++ "1"))],
        [⟨"f.txt", "A/f.txt", "A"⟩]) ∧
    (check_filechanges md5model (fun _ => some "1") (fun _ => true) [".q"]
        [("A", ["f.txt"])] (some [])).changed = true := by
  decide

/-- C2: the claim says the fingerprint is computed from the logical name and
the modification time obtained by stat-ing the file's full path as yielded by
the scanner.  The code calls `md5short(file)` with the base name, so the stat
inside `get_moddate` targets the bare base name, not `origin`: with the walk
yielding `f.txt` in `A/sub` and a filesystem where only the full path
`A/sub/f.txt` stats successfully (mtime `"77"`), the stored fingerprint is the
digest of `"f.txt|0"` (sentinel from the failed base-name stat), not of
`"f.txt|77"`. -/
theorem C2_fingerprint_stats_basename :
    check_filechanges md5model
        (fun p => if p == "A/sub/f.txt" then some "77" else none)
        (fun _ => true) [] [("A/sub", ["f.txt"])] (some []) =
      ⟨true, some [("f.txt", md5model ("f.txt" ++ "|" ++ "0"))],
        [⟨"f.txt", "A/sub/f.txt", "A/sub"⟩]⟩ ∧
    md5model ("f.txt" ++ "|" ++ "0") ≠ md5model ("f.txt" ++ "|" ++ "77") := by
  decide

/-- C8: when the modification-time stat fails, `get_moddate` substitutes the
sentinel `"0"` instead of raising, so the fingerprint is still produced, is
the digest of `file ++ "|" ++ "0"`, and is identical on every retry whose stat
also fails. -/
theorem C8_stat_fault_degrades (md5hex : String → String)
    (stat stat2 : String → Option String) (file : String)
    (h : stat file = none) (h2 : stat2 file = none) :
    md5short md5hex stat file = md5hex (file ++ "|" ++ "0") ∧
    md5short md5hex stat file = md5short md5hex stat2 file := by
  simp [md5short, get_moddate, h, h2]

/-- Witness for C8 at a concrete always-failing stat. -/
theorem C8_stat_fault_degrades_witness :
    md5short md5model (fun _ => none) "f" = md5model ("f" ++ "|" ++ "0") ∧
    md5short md5model (fun _ => none) "f" =
      md5short md5model (fun p => if p == "g" then some "3" else none) "f" :=
  C8_stat_fault_degrades md5model (fun _ => none)
    (fun p => if p == "g" then some "3" else none) "f" rfl (by decide)

/-- C4 counterexample: with an existing table holding only a row for `"b"`,
`update_hashtable "a" "m"` leaves the table unchanged and creates no record
for `"a"` — a silent no-op, contradicting the claim that update on a missing
record behaves like an insert. -/
theorem C4_update_missing_record_noop :
    update_hashtable "a" "m" (some [("b", "x")]) = some [("b", "x")] ∧
    "a" ∉ storeKeys (update_hashtable "a" "m" (some [("b", "x")])) := by
  decide

/-- C4 amended: the self-healing in `update_hashtable` is at table
granularity, not record granularity: when the backing table does not exist,
update creates the table and inserts the record; when the table exists but
holds no record for the name, the SQL UPDATE matches nothing and the store is
unchanged (no record is created). -/
theorem C4_update_table_granularity (file md5 : String) :
    update_hashtable file md5 none = some [(file, md5)] ∧
    ∀ rows : List Row, (∀ r ∈ rows, r.1 ≠ file) →
      update_hashtable file md5 (some rows) = some rows := by
  constructor
  · simp [update_hashtable, check_table, setup_hashtable, create_hashtable,
      insert_hashtable]
  · intro rows habs
    simp only [update_hashtable, check_table, Option.isSome_some, if_true]
    exact congrArg some (map_update_eq_self file md5 rows habs)



/-- Witness for C4 amended: a missing table is healed, an existing table
with a foreign record is left alone. -/
theorem C4_update_table_granularity_witness :
    update_hashtable "a" "m" none = some [("a", "m")] ∧
    update_hashtable "a" "m" (some [("c", "x")]) = some [("c", "x")] :=
  ⟨(C4_update_table_granularity "a" "m").1,
   (C4_update_table_granularity "a" "m").2 [("c", "x")] (by decide)⟩

/-- C3: first classification of an unseen name returns `True` via the insert
branch (NEW) and appends a record; a second classification with the same
modification time returns `False` (UNCHANGED) with no write; a classification
after the modification time changed (so the digests differ) returns `True`
via the update branch (CHANGED) and overwrites the record's fingerprint. -/
theorem C3_classify_new_unchanged_changed (md5hex : String → String)
    (stat1 stat3 : String → Option String) (file : String) (rows : List Row)
    (habs : ∀ r ∈ rows, r.1 ≠ file)
    (hne : md5short md5hex stat1 file ≠ md5short md5hex stat3 file) :
    haschanged file (md5short md5hex stat1 file) (some rows) =
      (true, some (rows ++ [(file, md5short md5hex stat1 file)])) ∧
    haschanged file (md5short md5hex stat1 file)
        (some (rows ++ [(file, md5short md5hex stat1 file)])) =
      (false, some (rows ++ [(file, md5short md5hex stat1 file)])) ∧
    haschanged file (md5short md5hex stat3 file)
        (some (rows ++ [(file, md5short md5hex stat1 file)])) =
      (true, some (rows ++ [(file, md5short md5hex stat3 file)])) := by
  have hfil : rows.filter (fun r => r.1 == file) = [] := by
    refine List.filter_eq_nil_iff.mpr ?_
    intro r hr
    simp only [beq_eq_false_iff_ne, ne_eq, Bool.not_eq_true]
    simp [habs r hr]
  refine ⟨?_, ?_, ?_⟩
  · simp [haschanged, md5indb, hfil, insert_hashtable]
  · simp [haschanged, md5indb, hfil, List.filter_append]
  · simp only [haschanged, md5indb, List.filter_append, hfil, List.nil_append,
      List.filter_cons, beq_self_eq_true, if_true, List.map_cons, decide_True,
      List.filter_nil, List.map_nil, ne_eq, hne, not_false_iff, if_pos]
    simp only [update_hashtable, check_table, Option.isSome_some, if_true,
      List.map_append, map_update_eq_self file _ rows habs, List.map_cons,
      beq_self_eq_true, if_true, List.map_nil]

/-- Witness for C3 at a concrete name, store and pair of stats. -/
theorem C3_classify_witness :
    haschanged "a" (md5short md5model (fun _ => some "1") "a") (some []) =
      (true, some [("a", md5short md5model (fun _ => some "1") "a")]) ∧
    haschanged "a" (md5short md5model (fun _ => some "1") "a")
        (some [("a", md5short md5model (fun _ => some "1") "a")]) =
      (false, some [("a", md5short md5model (fun _ => some "1") "a")]) ∧
    haschanged "a" (md5short md5model (fun _ => some "2") "a")
        (some [("a", md5short md5model (fun _ => some "1") "a")]) =
      (true, some [("a", md5short md5model (fun _ => some "2") "a")]) :=
  C3_classify_new_unchanged_changed md5model (fun _ => some "1")
    (fun _ => some "2") "a" [] (by simp) (by decide)

/-- Keys of the store after `haschanged` come from the old keys or are the
classified file name itself. -/
theorem storeKeys_haschanged_subset (file md5 k : String) (s : Store)
    (hk : k ∈ storeKeys (haschanged file md5 s).2) :
    k = file ∨ k ∈ storeKeys s := by
  match s with
  | none =>
    simp only [haschanged, md5indb, insert_hashtable] at hk
    simp [storeKeys] at hk
  | some rows =>
    simp only [haschanged, md5indb] at hk
    rcases hfil : (rows.filter (fun r => r.1 == file)).map (fun r => r.2) with
      _ | ⟨c, t⟩
    · rw [hfil] at hk
      simp only [insert_hashtable, storeKeys, Option.getD_some, List.map_append] at hk
      rcases List.mem_append.mp hk with h | h
      · exact Or.inr (by simpa [storeKeys] using h)
      · simp only [List.map_cons, List.map_nil, List.mem_singleton] at h
        exact Or.inl h
    · rw [hfil] at hk
      by_cases hcm : c ≠ md5
      · simp only [if_pos hcm, update_hashtable, check_table, Option.isSome_some,
          if_true, storeKeys, Option.getD_some, List.map_map, List.mem_map] at hk
        rcases hk with ⟨r, hr, hrk⟩
        right
        refine List.mem_map.mpr ⟨r, hr, ?_⟩
        by_cases h1 : r.1 = file <;> rw [← hrk] <;> simp [h1]
      · simp only [if_neg hcm] at hk
        exact Or.inr hk

/-- `haschanged` preserves the at-most-one-row-per-name invariant: the
insert branch fires only when the name is absent, and the update branch
rewrites fingerprints without touching keys. -/
theorem NodupKeys_haschanged (file md5 : String) (s : Store)
    (h : NodupKeys s) : NodupKeys (haschanged file md5 s).2 := by
  match s with
  | none =>
    simp [haschanged, md5indb, insert_hashtable, NodupKeys, storeKeys]
  | some rows =>
    rcases hfil : (rows.filter (fun r => r.1 == file)).map (fun r => r.2) with
      _ | ⟨c, t⟩
    · have habs : file ∉ storeKeys (some rows) := by
        intro hmem
        simp only [storeKeys, Option.getD_some, List.mem_map] at hmem
        rcases hmem with ⟨r, hr, hrk⟩
        have : r ∈ rows.filter (fun r => r.1 == file) :=
          List.mem_filter.mpr ⟨hr, by simp [hrk]⟩
        rw [List.map_eq_nil_iff] at hfil
        rw [hfil] at this
        exact absurd this (List.not_mem_nil r)
      simp only [haschanged, md5indb, hfil, insert_hashtable, NodupKeys,
        storeKeys, Option.getD_some, List.map_append, List.map_cons,
        List.map_nil]
      rw [List.nodup_append]
      refine ⟨h, List.nodup_singleton file, ?_⟩
      intro a ha hb
      simp only [List.mem_singleton] at hb
      subst hb
      exact habs (by simpa [storeKeys] using ha)
    · simp only [haschanged, md5indb, hfil]
      by_cases hcm : c ≠ md5
      · simp only [if_pos hcm, update_hashtable, check_table,
          Option.isSome_some, if_true, NodupKeys, storeKeys, Option.getD_some,
          List.map_map]
        have hkeys :
            rows.map
              ((fun r : Row => r.1) ∘
                fun r : Row => if r.1 == file then (r.1, md5) else r) =
              rows.map (fun r : Row => r.1) := by
          refine List.map_congr_left ?_
          intro r _
          by_cases h1 : r.1 = file <;> simp [h1]
        rw [show ((fun r : Row => r.1) ∘
              fun r : Row => if r.1 == file then (r.1, md5) else r) =
              (Prod.fst ∘ fun r : Row => if r.1 == file then (r.1, md5) else r)
            from rfl] at hkeys
        rw [hkeys]
        exact h
      · simpa only [if_neg hcm] using h

/-- C5: after any sequence of classify operations applied to a store whose
table has at most one row per name (in particular a fresh or empty table),
the store still has at most one row per distinct name. -/
theorem C5_at_most_one_record (ops : List (String × String)) (s0 : Store)
    (h : NodupKeys s0) :
    NodupKeys (ops.foldl (fun s op => (haschanged op.1 op.2 s).2) s0) := by
  induction ops generalizing s0 with
  | nil => exact h
  | cons op t ih => exact ih _ (NodupKeys_haschanged op.1 op.2 s0 h)

/-- Witness for C5: a concrete sequence with repeats and fingerprint changes
starting from the empty table. -/
theorem C5_at_most_one_record_witness :
    NodupKeys
      (([("a", "1"), ("a", "1"), ("a", "2"), ("b", "1")] :
          List (String × String)).foldl
        (fun s op => (haschanged op.1 op.2 s).2) (some [])) :=
  C5_at_most_one_record [("a", "1"), ("a", "1"), ("a", "2"), ("b", "1")]
    (some []) (by simp [NodupKeys, storeKeys])

/-- C6 counterexample: in continuous mode, with one completed cycle that
detected a change before the cancellation signal, the interrupt handler
prints `"Stopped..."` and the count, but performs no `close_db` action at
all — the connection is closed zero times, not exactly once. -/
theorem C6_interrupt_db_not_closed :
    execute_loop md5model (fun _ => some "1") (fun _ => true)
        (fun f => if f == "L" then [("L", ["g.txt"])] else []) id ["L"] 1
        (some []) =
      some (1, some [("g.txt", md5model ("g.txt" ++ "|" ++ "1"))],
        [Action.printStopped, Action.printChanges 1]) ∧
    Action.closeDb ∉ [Action.printStopped, Action.printChanges 1] := by
  decide

/-- C6 amended: on cancellation the continuous loop stops and prints the
changed-cycle count only when it is positive; the cancellation handler never
closes the store connection (it stays open until process exit) and never
saves the report. -/
theorem C6_interrupt_actions (md5hex : String → String)
    (stat : String → Option String) (isFile : String → Bool)
    (walkOf : String → List (String × List String)) (abspath : String → String)
    (lines : List String) (ncycles : Nat) (s0 : Store) (changes : Nat)
    (s2 : Store) (acts : List Action)
    (h : execute_loop md5hex stat isFile walkOf abspath lines ncycles s0 =
      some (changes, s2, acts)) :
    Action.closeDb ∉ acts ∧ Action.saveReport ∉ acts ∧
    acts = Action.printStopped ::
      (if changes > 0 then [Action.printChanges changes] else []) := by
  unfold execute_loop at h
  cases hgo : execute_loop_go md5hex stat isFile walkOf abspath lines ncycles 0 s0 with
  | none => rw [hgo] at h; exact absurd h (by simp)
  | some p =>
    rw [hgo] at h
    simp only [Option.some.injEq, Prod.mk.injEq] at h
    rcases h with ⟨h1, h2, h3⟩
    subst h1
    subst h3
    by_cases hc : p.1 > 0 <;> simp [hc]

/-- Witness for C6 amended: the handler actions at a concrete one-cycle run
with one changed cycle. -/
theorem C6_interrupt_actions_witness :
    Action.closeDb ∉ [Action.printStopped, Action.printChanges 1] ∧
    Action.saveReport ∉ [Action.printStopped, Action.printChanges 1] ∧
    [Action.printStopped, Action.printChanges 1] = Action.printStopped ::
      (if 1 > 0 then [Action.printChanges 1] else []) :=
  C6_interrupt_actions md5model (fun _ => some "1") (fun _ => true)
    (fun f => if f == "M" then [("M", ["h.txt"])] else []) id ["M"] 1
    (some []) 1 (some [("h.txt", md5model ("h.txt" ++ "|" ++ "1"))])
    [Action.printStopped, Action.printChanges 1] (by decide)

/-- C9 counterexample: a single-shot run over a configured folder with no
changes ends with an empty action trace: neither the report save nor the
`close_db` call happens, so the store connection is not closed explicitly. -/
theorem C9_no_close_without_change :
    execute_single md5model (fun _ => some "1") (fun _ => true)
        (fun f => if f == "N" then [("N", ([] : List String))] else []) id
        ["N"] (some []) =
      some (some [], []) ∧
    Action.closeDb ∉ ([] : List Action) := by
  decide

/-- C9 amended: at the end of a single-shot run the store connection is
closed exactly once when the cycle reported a change (via `end_xlsreport`,
which saves the workbook and then calls `close_db`), and zero times when it
did not. -/
theorem C9_close_iff_change (md5hex : String → String)
    (stat : String → Option String) (isFile : String → Bool)
    (walkOf : String → List (String × List String)) (abspath : String → String)
    (lines : List String) (s0 : Store) (ch : Bool) (s2 : Store)
    (ev : List ChangeEvent)
    (h : run_filechanges md5hex stat isFile walkOf abspath lines s0 =
      some (ch, s2, ev)) :
    ∃ acts, execute_single md5hex stat isFile walkOf abspath lines s0 =
        some (s2, acts) ∧
      acts.count Action.closeDb = (if ch then 1 else 0) ∧
      acts.count Action.saveReport = (if ch then 1 else 0) := by
  refine ⟨if ch then [Action.saveReport, Action.closeDb] else [], ?_, ?_, ?_⟩
  · simp only [execute_single, h]
  · cases ch <;> simp [List.count_cons]
  · cases ch <;> simp [List.count_cons]

/-- Witness for C9 amended at a concrete changed run: the close action
happens exactly once. -/
theorem C9_close_iff_change_witness :
    ∃ acts,
      execute_single md5model (fun _ => some "1") (fun _ => true)
          (fun f => if f == "P" then [("P", ["k.txt"])] else []) id ["P"]
          (some []) =
        some (some [("k.txt", md5model ("k.txt" ++ "|" ++ "1"))], acts) ∧
      acts.count Action.closeDb = (if true then 1 else 0) ∧
      acts.count Action.saveReport = (if true then 1 else 0) :=
  C9_close_iff_change md5model (fun _ => some "1") (fun _ => true)
    (fun f => if f == "P" then [("P", ["k.txt"])] else []) id ["P"] (some [])
    true (some [("k.txt", md5model ("k.txt" ++ "|" ++ "1"))])
    [⟨"k.txt", "P/k.txt", "P"⟩] (by decide)

/-- C10: the configuration loader can return lists of unequal lengths that
the orchestrator indexes in parallel: the line `"a|"` (empty extension part)
appends a folder but no extension entry; a duplicate folder path (`"a|x"`,
`"a|y"`) appends an extension entry but no folder; with `["a|", "b|x"]` the
folder `a` is paired with the exclusion set `["x"]` that came from the `b`
line; and running the orchestrator on the `["a|"]` configuration indexes the
extensions list out of bounds (Python `IndexError`, modelled as `none`). -/
theorem C10_config_lists_misaligned :
    (load_folders id ["a|"]).1.length = 1 ∧
    (load_folders id ["a|"]).2.length = 0 ∧
    load_folders id ["a|x", "a|y"] = (["a"], [["x"], ["y"]]) ∧
    load_folders id ["a|", "b|x"] = (["a", "b"], [["x"]]) ∧
    run_filechanges md5model (fun _ => none) (fun _ => false) (fun _ => [])
      id ["a|"] (some []) = none := by
  decide


/-- A file whose extension is excluded is skipped by the scan body, whether
or not it is a regular file. -/
theorem processFile_excluded_eq (md5hex : String → String)
    (stat : String → Option String) (isFile : String → Bool)
    (exclude : List String) (subdir : String) (acc : ScanResult)
    (file : String) (hx : exclude.contains (get_fileext file) = true) :
    processFile md5hex stat isFile exclude subdir acc file = acc := by
  by_cases hf : isFile (subdir ++ "/" ++ file) = true
  · simp only [processFile]
    rw [if_pos hf, if_neg (by simpa using hx)]
  · simp only [processFile]
    rw [if_neg hf]

/-- Dropping the elements a fold skips does not change the fold. -/
theorem foldl_skip_filter {α β : Type _} (g : β → α → β) (p : α → Bool)
    (hskip : ∀ acc x, p x = true → g acc x = acc) :
    ∀ (l : List α) (acc : β),
      (l.filter (fun x => !(p x))).foldl g acc = l.foldl g acc := by
  intro l
  induction l with
  | nil => intro _; rfl
  | cons x t ih =>
    intro acc
    rcases hx : p x with _ | _
    · simp only [List.filter_cons, hx, Bool.not_false, if_true, List.foldl_cons]
      exact ih (g acc x)
    · simp only [List.filter_cons, hx, Bool.not_true, Bool.false_eq_true,
        if_false, List.foldl_cons, hskip acc x hx]
      exact ih acc

/-- Two list filters commute. -/
theorem filter_swap {α : Type _} (p q : α → Bool) (l : List α) :
    (l.filter q).filter p = (l.filter p).filter q := by
  induction l with
  | nil => rfl
  | cons x t ih =>
    by_cases hp : p x = true <;> by_cases hq : q x = true <;>
      simp [List.filter_cons, hp, hq, ih]

/-- Dropping the excluded-extension files from every walk entry does not
change a fold of the per-entry scan step. -/
theorem walk_foldl_drop_excluded (md5hex : String → String)
    (stat : String → Option String) (isFile : String → Bool)
    (exclude : List String) :
    ∀ (walk : List (String × List String)) (init : ScanResult),
      (walk.map (fun e => (e.1, e.2.filter (fun f =>
          !(exclude.contains (get_fileext f)))))).foldl
        (fun acc entry => (entry.2.filter (fun f => !(startswithDot f))).foldl
          (processFile md5hex stat isFile exclude entry.1) acc) init =
      walk.foldl
        (fun acc entry => (entry.2.filter (fun f => !(startswithDot f))).foldl
          (processFile md5hex stat isFile exclude entry.1) acc) init := by
  intro walk
  induction walk with
  | nil => intro _; rfl
  | cons e t ih =>
    intro init
    simp only [List.map_cons, List.foldl_cons]
    rw [filter_swap]
    rw [foldl_skip_filter (processFile md5hex stat isFile exclude e.1)
      (fun f => exclude.contains (get_fileext f))
      (fun acc2 f hf => processFile_excluded_eq md5hex stat isFile exclude e.1
        acc2 f hf)]
    exact ih _

/-- Removing the excluded-extension files from every walk entry leaves the
scan of a folder unchanged: those files are never processed. -/
theorem check_filechanges_drop_excluded (md5hex : String → String)
    (stat : String → Option String) (isFile : String → Bool)
    (exclude : List String) (walk : List (String × List String)) (s : Store) :
    check_filechanges md5hex stat isFile exclude
        (walk.map (fun e =>
          (e.1, e.2.filter (fun f => !(exclude.contains (get_fileext f)))))) s =
      check_filechanges md5hex stat isFile exclude walk s := by
  unfold check_filechanges
  exact walk_foldl_drop_excluded md5hex stat isFile exclude walk ⟨false, s, []⟩

/-- The scan body preserves the two C7 invariants: report rows never name an
excluded extension, and every store key is an old key or has a non-excluded
extension. -/
theorem processFile_scan_inv (md5hex : String → String)
    (stat : String → Option String) (isFile : String → Bool)
    (exclude : List String) (subdir : String) (s : Store) (acc : ScanResult)
    (file : String)
    (hev : ∀ e ∈ acc.events, exclude.contains (get_fileext e.fileName) = false)
    (hkey : ∀ k ∈ storeKeys acc.store,
      k ∈ storeKeys s ∨ exclude.contains (get_fileext k) = false) :
    (∀ e ∈ (processFile md5hex stat isFile exclude subdir acc file).events,
        exclude.contains (get_fileext e.fileName) = false) ∧
    (∀ k ∈ storeKeys (processFile md5hex stat isFile exclude subdir acc
        file).store, k ∈ storeKeys s ∨
        exclude.contains (get_fileext k) = false) := by
  unfold processFile
  by_cases hf : isFile (subdir ++ "/" ++ file) = true
  case neg =>
    simp only [hf, Bool.false_eq_true, if_false]
    exact ⟨hev, hkey⟩
  by_cases hx : exclude.contains (get_fileext file) = true
  case neg =>
    rw [Bool.not_eq_true] at hx
    simp only [hf, if_true, hx, Bool.not_false, if_true]
    have hkey2 : ∀ k ∈ storeKeys
        (haschanged file (md5short md5hex stat file) acc.store).2,
        k ∈ storeKeys s ∨ exclude.contains (get_fileext k) = false := by
      intro k hk
      rcases storeKeys_haschanged_subset file (md5short md5hex stat file) k
          acc.store hk with h | h
      · subst h
        exact Or.inr hx
      · exact hkey k h
    rcases hch : (haschanged file (md5short md5hex stat file) acc.store).1 with
      _ | _
    · simp only [hch, Bool.false_eq_true, if_false]
      exact ⟨hev, hkey2⟩
    · simp only [hch, if_true]
      refine ⟨?_, hkey2⟩
      intro e he
      rcases List.mem_append.mp he with h | h
      · exact hev e h
      · simp only [List.mem_singleton] at h
        subst h
        exact hx
  case pos =>
    simp only [hf, if_true, hx, Bool.not_true, Bool.false_eq_true, if_false]
    exact ⟨hev, hkey⟩

/-- Folding the scan body over a list of files preserves the C7 invariants. -/
theorem foldl_scan_inv (md5hex : String → String)
    (stat : String → Option String) (isFile : String → Bool)
    (exclude : List String) (subdir : String) (s : Store) :
    ∀ (files : List String) (acc : ScanResult),
      (∀ e ∈ acc.events, exclude.contains (get_fileext e.fileName) = false) →
      (∀ k ∈ storeKeys acc.store,
        k ∈ storeKeys s ∨ exclude.contains (get_fileext k) = false) →
      (∀ e ∈ (files.foldl (processFile md5hex stat isFile exclude subdir)
          acc).events, exclude.contains (get_fileext e.fileName) = false) ∧
      (∀ k ∈ storeKeys (files.foldl
          (processFile md5hex stat isFile exclude subdir) acc).store,
        k ∈ storeKeys s ∨ exclude.contains (get_fileext k) = false) := by
  intro files
  induction files with
  | nil => intro acc hev hkey; exact ⟨hev, hkey⟩
  | cons f t ih =>
    intro acc hev hkey
    have h := processFile_scan_inv md5hex stat isFile exclude subdir s acc f
      hev hkey
    exact ih _ h.1 h.2

/-- Scanning a whole walk preserves the C7 invariants. -/
theorem walk_scan_inv (md5hex : String → String)
    (stat : String → Option String) (isFile : String → Bool)
    (exclude : List String) (s : Store) :
    ∀ (walk : List (String × List String)) (acc : ScanResult),
      (∀ e ∈ acc.events, exclude.contains (get_fileext e.fileName) = false) →
      (∀ k ∈ storeKeys acc.store,
        k ∈ storeKeys s ∨ exclude.contains (get_fileext k) = false) →
      (∀ e ∈ (walk.foldl (fun acc2 entry =>
            (entry.2.filter (fun f => !(startswithDot f))).foldl
              (processFile md5hex stat isFile exclude entry.1) acc2)
          acc).events, exclude.contains (get_fileext e.fileName) = false) ∧
      (∀ k ∈ storeKeys (walk.foldl (fun acc2 entry =>
            (entry.2.filter (fun f => !(startswithDot f))).foldl
              (processFile md5hex stat isFile exclude entry.1) acc2)
          acc).store,
        k ∈ storeKeys s ∨ exclude.contains (get_fileext k) = false) := by
  intro walk
  induction walk with
  | nil => intro acc hev hkey; exact ⟨hev, hkey⟩
  | cons entry t ih =>
    intro acc hev hkey
    have h := foldl_scan_inv md5hex stat isFile exclude entry.1 s
      (entry.2.filter (fun f => !(startswithDot f))) acc hev hkey
    exact ih _ h.1 h.2

/-- C7: a file whose extension (matched case-sensitively, leading dot
included) is in the folder's exclusion set is invisible to the scan: removing
all such files from the walk leaves the scan result (flag, store and report
rows) unchanged, no report row names an excluded extension, and every key of
the resulting store either predates the scan or has a non-excluded
extension. -/
theorem C7_excluded_files_invisible (md5hex : String → String)
    (stat : String → Option String) (isFile : String → Bool)
    (exclude : List String) (walk : List (String × List String)) (s : Store) :
    check_filechanges md5hex stat isFile exclude
        (walk.map (fun e =>
          (e.1, e.2.filter (fun f => !(exclude.contains (get_fileext f)))))) s =
      check_filechanges md5hex stat isFile exclude walk s ∧
    (∀ e ∈ (check_filechanges md5hex stat isFile exclude walk s).events,
        exclude.contains (get_fileext e.fileName) = false) ∧
    (∀ k ∈ storeKeys (check_filechanges md5hex stat isFile exclude walk
        s).store, k ∈ storeKeys s ∨
        exclude.contains (get_fileext k) = false) := by
  have hinv := walk_scan_inv md5hex stat isFile exclude s walk
    ⟨false, s, []⟩ (by intro e he; exact absurd he (List.not_mem_nil e))
    (fun k hk => Or.inl hk)
  exact ⟨check_filechanges_drop_excluded md5hex stat isFile exclude walk s,
    hinv.1, hinv.2⟩

/-- Witness for C7 at a concrete folder with one kept and one excluded
file. -/
theorem C7_excluded_files_invisible_witness :
    check_filechanges md5model (fun _ => some "5") (fun _ => true) [".tmp"]
        ([("D", ["a.txt", "b.tmp"])].map (fun e =>
          (e.1, e.2.filter (fun f => !([".tmp"].contains (get_fileext f))))))
        (some []) =
      check_filechanges md5model (fun _ => some "5") (fun _ => true) [".tmp"]
        [("D", ["a.txt", "b.tmp"])] (some []) ∧
    [".tmp"].contains (get_fileext "a.txt") = false :=
  ⟨(C7_excluded_files_invisible md5model (fun _ => some "5") (fun _ => true)
      [".tmp"] [("D", ["a.txt", "b.tmp"])] (some [])).1,
   (C7_excluded_files_invisible md5model (fun _ => some "5") (fun _ => true)
      [".tmp"] [("D", ["a.txt", "b.tmp"])] (some [])).2.1
     ⟨"a.txt", "D/a.txt", "D"⟩ (by decide)⟩

end FileChanges
